import Mathlib

/-!
Verification development for the crpy container-registry client.

The Python sources (`crpy/auth.py`, `crpy/utils.py`) are shallowly embedded
below.  Strings are modelled as `List Char`, byte strings as `List Nat`.
External collaborators (the HTTP transport, the on-disk cache in
`crpy.storage`, `hashlib.sha256`, the filesystem) are passed in as explicit
oracle parameters, mirroring the values the Python code reads from them; the
repository's own logic is translated statement by statement.
-/

set_option autoImplicit false

namespace Crpy

/-! ## Python string primitives

Each definition below models the exact semantics of the corresponding
Python `str` operation, specialised to the constant patterns the sources
use where that keeps the recursion structural.
-/

/-- Python `s.lstrip(chars)`: drop leading characters that belong to the
set `chars`. -/
def lstripSet (chars s : List Char) : List Char :=
  s.dropWhile (fun c => chars.contains c)

/-- Python `s.rstrip('"')`: drop trailing double-quote characters. -/
def rstripQuote (s : List Char) : List Char :=
  (s.reverse.dropWhile (fun c => c = '"')).reverse

/-- Python `s.strip("/")`: drop leading and trailing slashes. -/
def stripSlashes (s : List Char) : List Char :=
  ((s.dropWhile (fun c => c = '/')).reverse.dropWhile (fun c => c = '/')).reverse

/-- Split at the first occurrence of character `c`:
`some (before, after)` when `c` occurs, `none` otherwise.
`s.split(c, 1)` in Python succeeds with two pieces exactly when this is
`some`. -/
def splitFirstChar (c : Char) : List Char → Option (List Char × List Char)
  | [] => none
  | x :: xs =>
    if x = c then some ([], xs)
    else
      match splitFirstChar c xs with
      | none => none
      | some (a, b) => some (x :: a, b)

/-- Split at the first occurrence of the substring `pat` (leftmost match):
`some (before, after)` when `pat` occurs. -/
def splitFirstSub (pat : List Char) : List Char → Option (List Char × List Char)
  | [] => none
  | x :: xs =>
    if pat.isPrefixOf (x :: xs) then some ([], (x :: xs).drop pat.length)
    else
      match splitFirstSub pat xs with
      | none => none
      | some (a, b) => some (x :: a, b)

/-- Python `pat in s` for a nonempty pattern `pat`. -/
def containsSub (pat s : List Char) : Bool :=
  (splitFirstSub pat s).isSome

/-- Python `s.split(c)` (single-character separator, no maxsplit).
Always returns a nonempty list. -/
def splitAllChar (c : Char) : List Char → List (List Char)
  | [] => [[]]
  | x :: xs =>
    match splitAllChar c xs with
    | [] => [[x]]
    | h :: t => if x = c then [] :: h :: t else (x :: h) :: t

/-! ## Data model (`crpy/utils.py`, dataclass `RegistryInfo`) -/

structure RegistryInfo where
  registry : List Char
  repository : List Char
  tag : List Char
  https : Bool := true
  token : Option (List Char) := none
deriving Repr, DecidableEq

/-- `RegistryInfo.__str__`: `f"{registry}/{repository}:{tag}"`. -/
def strOfRegistryInfo (ri : RegistryInfo) : List Char :=
  ri.registry ++ ['/'] ++ ri.repository ++ [':'] ++ ri.tag

/-- `RegistryInfo.blobs_url`:
`f"{method}://{registry}/v2/{repository}/blobs"`. -/
def blobs_url (ri : RegistryInfo) : List Char :=
  (if ri.https then "https".toList else "http".toList) ++ "://".toList
    ++ ri.registry ++ "/v2/".toList ++ ri.repository ++ "/blobs".toList

/-- `RegistryInfo.manifest_url`:
`f"{method}://{registry}/v2/{repository}/manifests/{tag}"`. -/
def manifest_url (ri : RegistryInfo) : List Char :=
  (if ri.https then "https".toList else "http".toList) ++ "://".toList
    ++ ri.registry ++ "/v2/".toList ++ ri.repository ++ "/manifests/".toList ++ ri.tag

/-! ## Reference parser (`RegistryInfo.from_url`, utils.py lines 136-173)

`from_url` performs `scheme, url = url.split("://")` when `"://" in url`;
that tuple unpacking raises `ValueError` unless the split yields exactly
two parts, which `from_url_scheme_split` models by returning `none`. -/

/-- The scheme-handling prelude of `from_url`: returns
`(scheme, remainder, has_scheme)`, or `none` when the tuple unpacking of
`url.split("://")` would raise (more than one `"://"`). -/
def from_url_scheme_split (url : List Char) : Option (List Char × List Char × Bool) :=
  match splitFirstSub "://".toList url with
  | none => some ("https".toList, url, false)
  | some (scheme, rest) =>
    if containsSub "://".toList rest then none else some (scheme, rest, true)

/-- `(repository_raw.split(":") + ["latest"])[:2]` from `from_url`:
the name is the text before the first `:`; the tag is the text between the
first and second `:` (or `"latest"` when there is no `:`). -/
def splitNameTag (repoRaw : List Char) : List Char × List Char :=
  match splitFirstChar ':' repoRaw with
  | none => (repoRaw, "latest".toList)
  | some (name, r) => (name, r.takeWhile (fun c => c ≠ ':'))

/-- Builds the final `RegistryInfo(registry, name.strip("/"), tag, scheme == "https")`. -/
def mkRegistryInfo (registry repoRaw scheme : List Char) : RegistryInfo :=
  let nt := splitNameTag repoRaw
  { registry := registry
    repository := stripSlashes nt.1
    tag := nt.2
    https := scheme = "https".toList }

/-- The `possibly_hub_image` condition of `from_url` (utils.py lines 159-163). -/
def possibly_hub_image (url : List Char) : Bool :=
  url.count '/' = 0 ||
    (url.count '/' = 1
      && !((url.takeWhile (fun c => c ≠ '/')).contains '.')
      && !((url.takeWhile (fun c => c ≠ '/')).contains ':'))

/-- The body of `from_url` after the scheme has been handled.  `none`
models the `ValueError` raised by `registry, repository_raw = url.split("/", 1)`
when `url` has no `/`. -/
def from_url_rest (scheme url : List Char) (has_scheme : Bool) : Option RegistryInfo :=
  if !has_scheme && possibly_hub_image url then
    let repository_raw := if url.contains '/' then url else "library/".toList ++ url
    some (mkRegistryInfo "index.docker.io".toList repository_raw scheme)
  else
    match splitFirstChar '/' url with
    | none => none
    | some (registry, repository_raw) =>
      let repository_raw :=
        if containsSub "docker.io".toList registry && !repository_raw.contains '/' then
          "library/".toList ++ repository_raw
        else repository_raw
      some (mkRegistryInfo registry repository_raw scheme)

/-- `RegistryInfo.from_url`.  `none` models a raised exception. -/
def from_url (url : List Char) : Option RegistryInfo :=
  match from_url_scheme_split url with
  | none => none
  | some (scheme, rest, has_scheme) => from_url_rest scheme rest has_scheme

example :
    from_url "index.docker.io/library/nginx".toList
      = some { registry := "index.docker.io".toList
               repository := "library/nginx".toList
               tag := "latest".toList
               https := true } := by decide

example :
    from_url "gcr.io/distroless/cc:latest".toList
      = some { registry := "gcr.io".toList
               repository := "distroless/cc".toList
               tag := "latest".toList
               https := true } := by decide

example :
    from_url "localhost:5000/my/awesome/image:tag".toList
      = some { registry := "localhost:5000".toList
               repository := "my/awesome/image".toList
               tag := "tag".toList
               https := true } := by decide

example :
    from_url "http://registry:5000/my/repository/".toList
      = some { registry := "registry:5000".toList
               repository := "my/repository".toList
               tag := "latest".toList
               https := false } := by decide

example :
    from_url "alpine".toList
      = some { registry := "index.docker.io".toList
               repository := "library/alpine".toList
               tag := "latest".toList
               https := true } := by decide

/-! ## Helper lemmas for the parser -/

theorem splitFirstChar_isSome_of_mem {c : Char} {s : List Char} (h : c ∈ s) :
    (splitFirstChar c s).isSome = true := by
  induction s with
  | nil => cases h
  | cons x xs ih =>
    by_cases hx : x = c
    · simp [splitFirstChar, hx]
    · have hmem : c ∈ xs := by
        cases h with
        | head => exact absurd rfl hx
        | tail _ h2 => exact h2
      have := ih hmem
      simp only [splitFirstChar, if_neg hx]
      cases hsp : splitFirstChar c xs with
      | none => rw [hsp] at this; simp at this
      | some p => simp

/-! ## Theorems for claim C4 -/

/-- C4 (counterexample): reference parsing is not total: `from_url` raises on
the scheme-prefixed input `"https://alpine"` (the tuple unpacking of
`url.split("/", 1)` fails because the remainder contains no slash), instead
of returning an `ImageReference`. -/
theorem from_url_scheme_no_slash_counterexample :
    from_url "https://alpine".toList = none := by decide

/-- C4 (amended): `from_url` is pure and total — returns an `ImageReference`
and never raises — for every input whose scheme prefix (if any) splits off
cleanly and, when a scheme is present, whose remainder contains a `/`.
Scheme-prefixed strings without a slash in the remainder (such as
`"https://alpine"`) make it raise. -/
theorem from_url_total_on_clean_inputs
    (url scheme rest : List Char) (has_scheme : Bool)
    (h : from_url_scheme_split url = some (scheme, rest, has_scheme))
    (hslash : has_scheme = false ∨ '/' ∈ rest) :
    ∃ ri, from_url url = some ri := by
  have hbody : from_url url = from_url_rest scheme rest has_scheme := by
    rw [from_url, h]
  rw [hbody]
  unfold from_url_rest
  by_cases hhub : (!has_scheme && possibly_hub_image rest) = true
  · rw [if_pos hhub]
    exact ⟨_, rfl⟩
  · have hmem : '/' ∈ rest := by
      cases hslash with
      | inl hfalse =>
        subst hfalse
        simp only [Bool.not_false, Bool.true_and] at hhub
        have hcount : rest.count '/' ≠ 0 := by
          intro h0
          apply hhub
          unfold possibly_hub_image
          simp [h0]
        exact List.count_pos_iff.mp (Nat.pos_of_ne_zero hcount)
      | inr hmem => exact hmem
    have hsome := splitFirstChar_isSome_of_mem hmem
    rw [if_neg (by simp [hhub])]
    cases hsp : splitFirstChar '/' rest with
    | none => rw [hsp] at hsome; simp at hsome
    | some p => exact ⟨_, rfl⟩

/-- Closed witness for `from_url_total_on_clean_inputs` at the concrete
input `"alpine"`. -/
theorem from_url_total_on_clean_inputs_witness :
    ∃ ri, from_url "alpine".toList = some ri :=
  from_url_total_on_clean_inputs "alpine".toList "https".toList "alpine".toList false
    (by decide) (Or.inl rfl)

/-! ## Auth negotiator (`crpy/auth.py`)

`get_url_from_auth_header` is
`h.lstrip(start_key).replace('",', "?", 1).replace('",', "&").replace('="', "=").rstrip('"')`
guarded by `assert h.startswith(start_key)`.  The three `str.replace`
calls are specialised to their constant two-character patterns; each
scans left to right and does not rescan replacement text, exactly as
Python `str.replace` does. -/

/-- `'Bearer realm="'`, the `start_key` of `get_url_from_auth_header`. -/
def startKey : List Char := "Bearer realm=\"".toList

/-- Python `s.replace('",', rep, 1)`: replace only the first occurrence. -/
def replaceFirstQC (rep : List Char) : List Char → List Char
  | [] => []
  | [x] => [x]
  | x :: y :: xs =>
    if x = '"' ∧ y = ',' then rep ++ xs
    else x :: replaceFirstQC rep (y :: xs)

/-- Python `s.replace('",', rep)`: replace every occurrence. -/
def replaceAllQC (rep : List Char) : List Char → List Char
  | [] => []
  | [x] => [x]
  | x :: y :: xs =>
    if x = '"' ∧ y = ',' then rep ++ replaceAllQC rep xs
    else x :: replaceAllQC rep (y :: xs)

/-- Python `s.replace('="', "=")`: replace every occurrence. -/
def replaceEqQuote : List Char → List Char
  | [] => []
  | [x] => [x]
  | x :: y :: xs =>
    if x = '=' ∧ y = '"' then '=' :: replaceEqQuote xs
    else x :: replaceEqQuote (y :: xs)

/-- `get_url_from_auth_header` (auth.py lines 33-41).  `none` models the
`AssertionError` when the header does not start with `'Bearer realm="'`. -/
def get_url_from_auth_header (h : List Char) : Option (List Char) :=
  if startKey.isPrefixOf h then
    some (rstripQuote (replaceEqQuote (replaceAllQC "&".toList
      (replaceFirstQC "?".toList (lstripSet startKey h)))))
  else none

example :
    get_url_from_auth_header
      ("Bearer realm=\"https://auth.docker.io/token\",service=\"registry.docker.io\","
        ++ "scope=\"repository:library/nginx:pull\"").toList
      = some ("https://auth.docker.io/token?service=registry.docker.io"
        ++ "&scope=repository:library/nginx:pull").toList := by decide

/-! ## `get_token` (auth.py lines 6-30)

The network GET itself is external; we embed (a) the `Authorization`
header the function builds before the GET and (b) how it extracts the
token from the endpoint's JSON body (modelled as an association list of
string fields). -/

/-- Python truthiness of an optional string argument
(`None` and `""` are falsy). -/
def truthyStr (o : Option (List Char)) : Bool :=
  match o with
  | none => false
  | some s => !s.isEmpty

/-- UTF-8 encoding of one character (`str.encode("utf-8")`, external
Python behaviour). -/
def utf8EncodeChar (c : Char) : List Nat :=
  let n := c.toNat
  if n < 128 then [n]
  else if n < 2048 then [192 + n / 64, 128 + n % 64]
  else if n < 65536 then [224 + n / 4096, 128 + (n / 64) % 64, 128 + n % 64]
  else [240 + n / 262144, 128 + (n / 4096) % 64, 128 + (n / 64) % 64, 128 + n % 64]

/-- `str.encode("utf-8")`. -/
def utf8Encode (s : List Char) : List Nat :=
  (s.map utf8EncodeChar).flatten

/-- The RFC 4648 base64 alphabet. -/
def b64Alphabet : List Char :=
  "ABCDEFGHIJKLMNOPQRSTUVWXYZabcdefghijklmnopqrstuvwxyz0123456789+/".toList

/-- `base64.b64encode` (external Python behaviour): standard base64 with
`=` padding. -/
def b64EncodeBytes : List Nat → List Char
  | [] => []
  | [a] =>
    [b64Alphabet.getD (a / 4 % 64) 'A', b64Alphabet.getD (a % 4 * 16) 'A', '=', '=']
  | [a, b] =>
    [b64Alphabet.getD (a / 4 % 64) 'A', b64Alphabet.getD (a % 4 * 16 + b / 16) 'A',
      b64Alphabet.getD (b % 16 * 4) 'A', '=']
  | a :: b :: c :: rest =>
    [b64Alphabet.getD (a / 4 % 64) 'A', b64Alphabet.getD (a % 4 * 16 + b / 16) 'A',
      b64Alphabet.getD (b % 16 * 4 + c / 64) 'A', b64Alphabet.getD (c % 64) 'A']
      ++ b64EncodeBytes rest

example : b64EncodeBytes (utf8Encode "user:pass".toList) = "dXNlcjpwYXNz".toList := by
  decide

/-- The `Authorization` header `get_token` attaches to its GET
(auth.py lines 15-21).  Note the source overwrites the supplied
credentials with empty strings (`username, password = "", ""`) before
encoding them. -/
def get_token_request_header
    (username password b64_token : Option (List Char)) : Option (List Char) :=
  if truthyStr username && truthyStr password then
    let username : List Char := []
    let password : List Char := []
    some ("Basic ".toList ++ b64EncodeBytes (utf8Encode (username ++ [':'] ++ password)))
  else if truthyStr b64_token then
    some ("Basic ".toList ++ b64_token.getD [])
  else none

/-- Lookup of a string key in a JSON object modelled as an association
list (`"token" in req_json` / `req_json["token"]`). -/
def lookupKey (d : List (List Char × List Char)) (k : List Char) : Option (List Char) :=
  match d.find? (fun p => p.1 == k) with
  | some p => some p.2
  | none => none

/-- Token extraction from the endpoint's JSON body (auth.py lines 24-30):
prefer `token`, fall back to `access_token`, otherwise raise `ValueError`
(modelled as `.error`). -/
def get_token_parse (req_json : List (List Char × List Char)) :
    Except (List Char) (List Char) :=
  match lookupKey req_json "token".toList with
  | some v => Except.ok v
  | none =>
    match lookupKey req_json "access_token".toList with
    | some v => Except.ok v
    | none => Except.error "Authentication is required and it was not provided".toList

/-! ## Theorems for claim C2 -/

/-- C2: the token-endpoint GET does not carry
`Basic base64(username ":" password)` built from the supplied
credentials.  With `username="user"`, `password="pass"` the code sends
`Basic Og==` — the base64 of `":"` — because `get_token` overwrites both
credentials with empty strings before encoding; the header the claim
requires would be `Basic dXNlcjpwYXNz`. -/
theorem get_token_discards_credentials :
    get_token_request_header (some "user".toList) (some "pass".toList) none
        = some "Basic Og==".toList
      ∧ "Basic ".toList
          ++ b64EncodeBytes (utf8Encode ("user".toList ++ [':'] ++ "pass".toList))
          = "Basic dXNlcjpwYXNz".toList
      ∧ "Basic Og==".toList ≠ "Basic dXNlcjpwYXNz".toList := by
  refine ⟨by decide, by decide, by decide⟩

/-! ## Helper lemmas about the string primitives -/

theorem dropWhile_append_of_forall {p : Char → Bool} (A l : List Char)
    (h : ∀ a ∈ A, p a = true) :
    (A ++ l).dropWhile p = l.dropWhile p := by
  induction A with
  | nil => rfl
  | cons a A ih =>
    rw [List.cons_append, List.dropWhile_cons, if_pos (h a (List.mem_cons_self a A))]
    exact ih fun x hx => h x (List.mem_cons_of_mem a hx)

theorem lstrip_startKey (r : Char) (Z : List Char) (hr : startKey.contains r = false) :
    lstripSet startKey (startKey ++ (r :: Z)) = r :: Z := by
  unfold lstripSet
  rw [dropWhile_append_of_forall _ _ (fun a ha => List.elem_iff.mpr ha),
    List.dropWhile_cons,
    if_neg (fun hcontra => by
      have hr' : List.elem r startKey = false := hr
      rw [hr'] at hcontra
      exact Bool.false_ne_true hcontra)]

theorem replaceFirstQC_cons (rep : List Char) (x : Char) (t : List Char)
    (h : ¬(x = '"' ∧ t.head? = some ',')) :
    replaceFirstQC rep (x :: t) = x :: replaceFirstQC rep t := by
  cases t with
  | nil => rfl
  | cons y ys =>
    have hxy : ¬(x = '"' ∧ y = ',') := by simpa using h
    simp [replaceFirstQC, hxy]

theorem replaceFirstQC_boundary (rep B : List Char) :
    ∀ A : List Char, '"' ∉ A →
      replaceFirstQC rep (A ++ ('"' :: ',' :: B)) = A ++ (rep ++ B)
  | [], _ => by simp [replaceFirstQC]
  | a :: A, h => by
    have ha : ¬(a = '"' ∧ ((A ++ ('"' :: ',' :: B)).head? = some ',')) := by
      intro hand
      exact h (hand.1 ▸ List.mem_cons_self a A)
    rw [List.cons_append, replaceFirstQC_cons rep a _ ha,
      replaceFirstQC_boundary rep B A (fun m => h (List.mem_cons_of_mem a m)),
      List.cons_append]

theorem replaceAllQC_cons (rep : List Char) (x : Char) (t : List Char)
    (h : ¬(x = '"' ∧ t.head? = some ',')) :
    replaceAllQC rep (x :: t) = x :: replaceAllQC rep t := by
  cases t with
  | nil => rfl
  | cons y ys =>
    have hxy : ¬(x = '"' ∧ y = ',') := by simpa using h
    simp [replaceAllQC, hxy]

theorem replaceAllQC_append (rep B : List Char) :
    ∀ A : List Char, '"' ∉ A →
      replaceAllQC rep (A ++ B) = A ++ replaceAllQC rep B
  | [], _ => rfl
  | a :: A, h => by
    have ha : ¬(a = '"' ∧ ((A ++ B).head? = some ',')) := by
      intro hand
      exact h (hand.1 ▸ List.mem_cons_self a A)
    rw [List.cons_append, replaceAllQC_cons rep a _ ha,
      replaceAllQC_append rep B A (fun m => h (List.mem_cons_of_mem a m)),
      List.cons_append]

theorem replaceAllQC_pair (rep B : List Char) :
    replaceAllQC rep ('"' :: ',' :: B) = rep ++ replaceAllQC rep B := by
  simp [replaceAllQC]

theorem replaceEqQuote_cons (x : Char) (t : List Char)
    (h : ¬(x = '=' ∧ t.head? = some '"')) :
    replaceEqQuote (x :: t) = x :: replaceEqQuote t := by
  cases t with
  | nil => rfl
  | cons y ys =>
    have hxy : ¬(x = '=' ∧ y = '"') := by simpa using h
    simp [replaceEqQuote, hxy]

theorem replaceEqQuote_append (B : List Char) :
    ∀ A : List Char, '"' ∉ A →
      (B.head? = some '"' → A.getLast? ≠ some '=') →
      replaceEqQuote (A ++ B) = A ++ replaceEqQuote B
  | [], _, _ => rfl
  | [a], h, hlast => by
    have hcond : ¬(a = '=' ∧ B.head? = some '"') := by
      intro hand
      exact hlast hand.2 (by simp [hand.1])
    simpa using replaceEqQuote_cons a B hcond
  | a :: b :: A, h, hlast => by
    have hb : b ≠ '"' := fun e => h (by simp [e])
    have hcond : ¬(a = '=' ∧ (((b :: A) ++ B).head? = some '"')) := by
      intro hand
      rw [List.cons_append] at hand
      exact hb (by simpa using hand.2)
    rw [List.cons_append, replaceEqQuote_cons a _ hcond,
      replaceEqQuote_append B (b :: A) (fun m => h (List.mem_cons_of_mem a m))
        (fun hq => by
          have := hlast hq
          rw [List.getLast?_cons_cons] at this
          exact this)]
    simp

theorem replaceEqQuote_pattern (M : List Char) :
    replaceEqQuote ('=' :: '"' :: M) = '=' :: replaceEqQuote M := by
  simp [replaceEqQuote]

theorem rstripQuote_append_quote (l : List Char) :
    rstripQuote (l ++ ['"']) = rstripQuote l := by
  unfold rstripQuote
  rw [List.reverse_append]
  simp [List.dropWhile_cons]

theorem rstripQuote_no_trailing (l : List Char)
    (h : ∀ x, l.getLast? = some x → x ≠ '"') : rstripQuote l = l := by
  cases hrev : l.reverse with
  | nil =>
    have hnil : l = [] := List.reverse_eq_nil_iff.mp hrev
    subst hnil; rfl
  | cons x r =>
    have hx : l.getLast? = some x := by rw [← List.head?_reverse, hrev]; rfl
    have hxq : x ≠ '"' := h x hx
    unfold rstripQuote
    rw [hrev, List.dropWhile_cons, if_neg (by simp [hxq]), ← hrev, List.reverse_reverse]

theorem rstripQuote_stage (c : Char) (W C : List Char) (hC : '"' ∉ c :: C) :
    rstripQuote (W ++ ((c :: C) ++ ['"'])) = W ++ (c :: C) := by
  have hsh : W ++ ((c :: C) ++ ['"']) = (W ++ (c :: C)) ++ ['"'] := by
    simp [List.append_assoc]
  rw [hsh, rstripQuote_append_quote]
  apply rstripQuote_no_trailing
  intro x hx
  rw [List.getLast?_append_cons] at hx
  obtain ⟨hne, hxeq⟩ := List.mem_getLast?_eq_getLast hx
  intro hquote
  exact hC (by rw [← hquote, hxeq]; exact List.getLast_mem hne)

theorem replaceAllQC_stage (s c : Char) (P S C : List Char)
    (hP : '"' ∉ P) (hS : '"' ∉ s :: S) (hC : '"' ∉ c :: C)
    (hs : s ≠ ',') (hc : c ≠ ',') :
    replaceAllQC "&".toList
        (P ++ ('"' :: ((s :: S) ++ ('"' :: ',' :: ("scope=".toList
          ++ ('"' :: ((c :: C) ++ ['"'])))))))
      = P ++ ('"' :: ((s :: S) ++ ('&' :: ("scope=".toList
          ++ ('"' :: ((c :: C) ++ ['"'])))))) := by
  rw [replaceAllQC_append _ _ P hP]
  congr 1
  rw [List.cons_append,
    replaceAllQC_cons _ '"' _ (by simp [hs]), ← List.cons_append,
    replaceAllQC_append _ _ (s :: S) hS,
    replaceAllQC_pair]
  congr 2
  rw [replaceAllQC_append _ _ "scope=".toList (by decide), List.cons_append,
    replaceAllQC_cons _ '"' _ (by simp [hc]), ← List.cons_append,
    replaceAllQC_append _ _ (c :: C) hC]
  rfl

theorem replaceEqQuote_stage (s c : Char) (Q S C : List Char)
    (hQ : '"' ∉ Q) (hS : '"' ∉ s :: S) (hC : '"' ∉ c :: C)
    (hClast : (c :: C).getLast? ≠ some '=') :
    replaceEqQuote
        (Q ++ ('=' :: '"' :: ((s :: S) ++ ('&' :: ("scope".toList
          ++ ('=' :: '"' :: ((c :: C) ++ ['"'])))))))
      = Q ++ ('=' :: ((s :: S) ++ ('&' :: ("scope".toList
          ++ ('=' :: ((c :: C) ++ ['"'])))))) := by
  rw [replaceEqQuote_append _ Q hQ (fun hcontra => by simp at hcontra)]
  congr 1
  rw [replaceEqQuote_pattern]
  congr 1
  have hsh :
      (s :: S) ++ ('&' :: ("scope".toList ++ ('=' :: '"' :: ((c :: C) ++ ['"']))))
        = ((s :: S) ++ ('&' :: "scope".toList)) ++ ('=' :: '"' :: ((c :: C) ++ ['"'])) := by
    simp [List.append_assoc]
  rw [hsh,
    replaceEqQuote_append _ ((s :: S) ++ ('&' :: "scope".toList))
      (by
        intro hm
        rcases List.mem_append.mp hm with hm1 | hm2
        · exact hS hm1
        · revert hm2; decide)
      (fun hcontra => by simp at hcontra),
    replaceEqQuote_pattern,
    replaceEqQuote_append _ (c :: C) hC (fun _ => hClast)]
  simp [List.append_assoc]
  rfl

/-! ## Theorems for claim C5 -/

/-- C5 (counterexample): the challenge parser does not return `R?service=S&scope=C`
for every realm `R`.  For the well-formed header
`Bearer realm="market.io/t",service="s",scope="c"` the code yields
`ket.io/t?service=s&scope=c` — `lstrip` strips by character set, eating the
leading `mar` of the realm — instead of `market.io/t?service=s&scope=c`. -/
theorem auth_header_lstrip_counterexample :
    get_url_from_auth_header
        "Bearer realm=\"market.io/t\",service=\"s\",scope=\"c\"".toList
      = some "ket.io/t?service=s&scope=c".toList
    ∧ "ket.io/t?service=s&scope=c".toList
      ≠ "market.io/t?service=s&scope=c".toList := by
  exact ⟨by decide, by decide⟩

/-- C5 (amended): for a well-formed bearer challenge
`Bearer realm="R",service="S",scope="C"` — values nonempty, free of `"`,
`S` and `C` not starting with `,`, `C` not ending with `=` — whose realm's
FIRST character lies outside the character set of `'Bearer realm="'`,
`get_url_from_auth_header` returns exactly `R?service=S&scope=C`.
Realms starting with a character from that set are mangled by `lstrip`. -/
theorem auth_header_url_wellformed
    (r s c : Char) (R S C : List Char)
    (hr : startKey.contains r = false)
    (hR : '"' ∉ r :: R) (hS : '"' ∉ s :: S) (hC : '"' ∉ c :: C)
    (hs : s ≠ ',') (hc : c ≠ ',')
    (hClast : (c :: C).getLast? ≠ some '=') :
    get_url_from_auth_header
        (startKey ++ ((r :: R) ++ ("\",service=\"".toList
          ++ ((s :: S) ++ ("\",scope=\"".toList ++ ((c :: C) ++ "\"".toList))))))
      = some ((r :: R) ++ ("?service=".toList
          ++ ((s :: S) ++ ("&scope=".toList ++ (c :: C))))) := by
  rw [get_url_from_auth_header,
    if_pos (List.isPrefixOf_iff_prefix.mpr (List.prefix_append _ _))]
  congr 1
  -- stage 1: lstrip removes exactly the characters of the start key
  have e0 : startKey ++ ((r :: R) ++ ("\",service=\"".toList
        ++ ((s :: S) ++ ("\",scope=\"".toList ++ ((c :: C) ++ "\"".toList)))))
      = startKey ++ (r :: (R ++ ("\",service=\"".toList
        ++ ((s :: S) ++ ("\",scope=\"".toList ++ ((c :: C) ++ "\"".toList)))))) := by
    simp
  rw [e0, lstrip_startKey _ _ hr]
  -- stage 2: the first `",` replacement closes the realm
  have e1 : (r :: (R ++ ("\",service=\"".toList
        ++ ((s :: S) ++ ("\",scope=\"".toList ++ ((c :: C) ++ "\"".toList))))))
      = (r :: R) ++ ('"' :: ',' :: ("service=\"".toList
        ++ ((s :: S) ++ ("\",scope=\"".toList ++ ((c :: C) ++ "\"".toList))))) := by
    simp
  rw [e1, replaceFirstQC_boundary _ _ _ hR]
  -- stage 3: the remaining `",` replacement closes the service
  have e2 : (r :: R) ++ ("?".toList ++ ("service=\"".toList
        ++ ((s :: S) ++ ("\",scope=\"".toList ++ ((c :: C) ++ "\"".toList)))))
      = ((r :: R) ++ ('?' :: "service=".toList))
        ++ ('"' :: ((s :: S) ++ ('"' :: ',' :: ("scope=".toList
          ++ ('"' :: ((c :: C) ++ ['"'])))))) := by
    simp
  rw [e2, replaceAllQC_stage s c _ S C
    (by
      intro hm
      rcases List.mem_append.mp hm with hm1 | hm2
      · exact hR hm1
      · revert hm2; decide)
    hS hC hs hc]
  -- stage 4: `="` → `=` removes the opening quotes
  have e3 : ((r :: R) ++ ('?' :: "service=".toList))
        ++ ('"' :: ((s :: S) ++ ('&' :: ("scope=".toList
          ++ ('"' :: ((c :: C) ++ ['"']))))))
      = ((r :: R) ++ ('?' :: "service".toList))
        ++ ('=' :: '"' :: ((s :: S) ++ ('&' :: ("scope".toList
          ++ ('=' :: '"' :: ((c :: C) ++ ['"'])))))) := by
    simp
  rw [e3, replaceEqQuote_stage s c _ S C
    (by
      intro hm
      rcases List.mem_append.mp hm with hm1 | hm2
      · exact hR hm1
      · revert hm2; decide)
    hS hC hClast]
  -- stage 5: rstrip removes the final quote
  have e4 : ((r :: R) ++ ('?' :: "service".toList))
        ++ ('=' :: ((s :: S) ++ ('&' :: ("scope".toList
          ++ ('=' :: ((c :: C) ++ ['"']))))))
      = (((r :: R) ++ ('?' :: "service".toList))
          ++ ('=' :: ((s :: S) ++ ('&' :: ("scope".toList ++ ['='])))))
        ++ ((c :: C) ++ ['"']) := by
    simp
  rw [e4, rstripQuote_stage c _ C hC]
  simp

/-- Closed witness for `auth_header_url_wellformed` at the docker.io
challenge from the source's doctest. -/
theorem auth_header_url_wellformed_witness :
    get_url_from_auth_header
        (startKey ++ (('h' :: "ttps://auth.docker.io/token".toList)
          ++ ("\",service=\"".toList
          ++ (('r' :: "egistry.docker.io".toList)
          ++ ("\",scope=\"".toList
          ++ (('r' :: "epository:library/nginx:pull".toList) ++ "\"".toList))))))
      = some (('h' :: "ttps://auth.docker.io/token".toList)
          ++ ("?service=".toList
          ++ (('r' :: "egistry.docker.io".toList)
          ++ ("&scope=".toList ++ ('r' :: "epository:library/nginx:pull".toList))))) :=
  auth_header_url_wellformed 'h' 'r' 'r'
    "ttps://auth.docker.io/token".toList
    "egistry.docker.io".toList
    "epository:library/nginx:pull".toList
    (by decide) (by decide) (by decide) (by decide) (by decide) (by decide) (by decide)

/-! ## Blob pull (`RegistryInfo.pull_layer` and helpers, utils.py lines 257-296)

The network and the `crpy.storage` cache are external: the cached bytes
for a digest come in as the oracle `get_layer_path` (returning the cached
file's bytes, `none` on a cache miss, as `get_content_from_cache` reads
them), and the remote blob's bytes as `remote`.  A `BytesIO` destination
buffer is modelled by its current contents (`Option (List Nat)`, `none`
when no buffer was passed); `write` appends.  `hashlib.sha256` is the
ambient hex-digest function `H`. -/

/-- `compute_sha256` (utils.py lines 56-72) on in-memory bytes:
`f"sha256:{sha256_hash}"` for the ambient hex digest `H`. -/
def compute_sha256 (H : List Nat → List Char) (content : List Nat) : List Char :=
  "sha256:".toList ++ H content

/-- Outcome of one `pull_layer` call: the returned value, the final
contents of the destination buffer, and the `save_layer` writes made to
the cache. -/
structure PullLayerOut where
  ret : Option (List Nat)
  fileObj : Option (List Nat)
  saved : List (List Char × List Nat)
deriving Repr, DecidableEq

/-- `RegistryInfo.handle_content`: return the bytes when no buffer was
given, otherwise write them to the buffer and return `None`. -/
def handle_content (content : List Nat) (file_obj : Option (List Nat)) :
    Option (List Nat) × Option (List Nat) :=
  match file_obj with
  | none => (some content, none)
  | some buf => (none, some (buf ++ content))

/-- `RegistryInfo.get_response_content`: without a buffer, one GET and
return the body; with a buffer, stream the chunks into it, then return
`file_obj.getvalue()` (the whole buffer).  Yields
`(returned bytes, final buffer)`. -/
def get_response_content (remote : List Nat) (file_obj : Option (List Nat)) :
    List Nat × Option (List Nat) :=
  match file_obj with
  | none => (remote, none)
  | some buf => (buf ++ remote, some (buf ++ remote))

/-- `RegistryInfo.get_content_from_remote`: fetch, then `save_layer` the
bytes when `use_cache` — unconditionally, with no digest check — and
return the content. -/
def get_content_from_remote (remote : List Nat) (layer : List Char)
    (file_obj : Option (List Nat)) (use_cache : Bool) : PullLayerOut :=
  let rc := get_response_content remote file_obj
  { ret := some rc.1
    fileObj := rc.2
    saved :=
      if use_cache then
        [(layer, match file_obj with | none => rc.1 | some buf => buf ++ remote)]
      else [] }

/-- `RegistryInfo.pull_layer`: serve from the cache when possible,
otherwise fetch from the registry. -/
def pull_layer (get_layer_path : List Char → Option (List Nat)) (remote : List Nat)
    (layer : List Char) (file_obj : Option (List Nat)) (use_cache : Bool) :
    PullLayerOut :=
  let content := if use_cache then get_layer_path layer else none
  match content with
  | some c =>
    let hc := handle_content c file_obj
    { ret := hc.1, fileObj := hc.2, saved := [] }
  | none => get_content_from_remote remote layer file_obj use_cache

/-! ## Theorems for claim C1 -/

/-- C1 (counterexample): `pull_layer` neither computes the sha256 of the
downloaded content nor raises any `DigestMismatchError`: on a cache miss
for digest `sha256:aaaa`, with a body whose hash is
`sha256:0000...` ≠ `sha256:aaaa`, the bytes are returned AND written to the
cache, with no error outcome. -/
theorem pull_layer_unverified_counterexample :
    pull_layer (fun _ => none) [1, 2, 3] "sha256:aaaa".toList none true
        = { ret := some [1, 2, 3], fileObj := none,
            saved := [("sha256:aaaa".toList, [1, 2, 3])] }
      ∧ compute_sha256 (fun _ => "0000".toList) [1, 2, 3] ≠ "sha256:aaaa".toList := by
  exact ⟨by decide, by decide⟩

/-- C1 (amended): `pull_layer` performs no digest verification at all:
for ANY hex-digest function `H` and any downloaded bytes whose computed
digest differs from the requested one, the bytes are still returned and
still persisted to the cache, and no error is raised. -/
theorem pull_layer_no_digest_verification
    (H : List Nat → List Char) (remote : List Nat) (layer : List Char)
    (_hmismatch : compute_sha256 H remote ≠ layer) :
    pull_layer (fun _ => none) remote layer none true
      = { ret := some remote, fileObj := none, saved := [(layer, remote)] } := rfl

/-- Closed witness for `pull_layer_no_digest_verification`. -/
theorem pull_layer_no_digest_verification_witness :
    pull_layer (fun _ => none) [7] "sha256:bbbb".toList none true
      = { ret := some [7], fileObj := none, saved := [("sha256:bbbb".toList, [7])] } :=
  pull_layer_no_digest_verification (fun _ => "ffff".toList) [7] "sha256:bbbb".toList
    (by decide)

/-! ## Theorems for claim C10 -/

/-- C10: with a destination buffer, `pull_layer` returns `None` on a cache
hit (the cached bytes only go to the buffer) but returns the bytes as well
on a network fetch — the return value reveals whether the cache was hit. -/
theorem pull_layer_return_reveals_cache
    (buf cached remote : List Nat) (layer : List Char) :
    pull_layer (fun _ => some cached) remote layer (some buf) true
        = { ret := none, fileObj := some (buf ++ cached), saved := [] }
      ∧ pull_layer (fun _ => none) remote layer (some buf) true
        = { ret := some (buf ++ remote), fileObj := some (buf ++ remote),
            saved := [(layer, buf ++ remote)] } :=
  ⟨rfl, rfl⟩

/-! ## Manifest fetch (`RegistryInfo.get_manifest`, utils.py lines 175-213)

The HTTP transport is the oracle `net`, mapping the request headers to
the `Response` the registry answers with (the URL is fixed:
`manifest_url`).  `auth()`'s own token GET is external to this function;
the token it stores on the session is the parameter `new_token`. -/

/-- The `Response` dataclass (utils.py lines 30-37). -/
structure Response where
  status : Nat
  data : List Nat
  headers : List (List Char × List Char) := []
deriving Repr, DecidableEq

/-- Exact-key lookup in a response-header dict (`response.headers[k]`). -/
def lookupHeader (hs : List (List Char × List Char)) (k : List Char) :
    Option (List Char) :=
  match hs.find? (fun p => p.1 == k) with
  | some p => some p.2
  | none => none

/-- `RegistryInfo._headers`: a `Bearer` authorization header when a token
is held. -/
def registry_headers (token : Option (List Char)) : List (List Char × List Char) :=
  match token with
  | some t => [("Authorization".toList, "Bearer ".toList ++ t)]
  | none => []

def schema1_mimetype : List Char :=
  "application/vnd.docker.distribution.manifest.v1+json".toList

def schema2_mimetype : List Char :=
  "application/vnd.docker.distribution.manifest.v2+json".toList

def schema2_list_mimetype : List Char :=
  "application/vnd.docker.distribution.manifest.list.v2+json".toList

def ociv1_manifest_mimetype : List Char :=
  "application/vnd.oci.image.manifest.v1+json".toList

def ociv1_index_mimetype : List Char :=
  "application/vnd.oci.image.index.v1+json".toList

/-- The `Accept` header `get_manifest` sends (utils.py lines 185-205):
`", ".join(...)` over the recognised media types. -/
def acceptHeader (fat : Bool) : List (List Char × List Char) :=
  if fat then
    [("Accept".toList,
      List.intercalate ", ".toList
        [schema1_mimetype, schema2_mimetype, schema2_list_mimetype,
          ociv1_manifest_mimetype, ociv1_index_mimetype])]
  else
    [("Accept".toList,
      List.intercalate ", ".toList [schema1_mimetype, schema2_mimetype])]

/-- `RegistryInfo.get_manifest`: GET the manifest; on a 401, negotiate a
token from the `WWW-Authenticate` challenge (`auth()`, which asserts the
challenge starts with `'Bearer realm="'`) and retry once; a second 401
raises `ValueError`; ANY other response is returned as-is. -/
def get_manifest (fat : Bool) (token : Option (List Char))
    (new_token : List Char)
    (net : List (List Char × List Char) → Response) :
    Except (List Char) Response :=
  let headers := acceptHeader fat
  let response := net (headers ++ registry_headers token)
  if response.status = 401 then
    match lookupHeader response.headers "WWW-Authenticate".toList with
    | none => Except.error "KeyError: WWW-Authenticate".toList
    | some www_auth =>
      if startKey.isPrefixOf www_auth then
        let retry := net (headers ++ registry_headers (some new_token))
        if retry.status = 401 then
          Except.error "Could not authenticate to registry".toList
        else Except.ok retry
      else Except.error "AssertionError".toList
  else Except.ok response

/-! ## Theorems for claim C3 -/

/-- C3 (counterexample): a manifest response whose status is neither 200
nor 401 is NOT turned into a raised error: a 404 with its body is
returned to the caller unchanged. -/
theorem get_manifest_returns_non200_counterexample :
    get_manifest false none "tok".toList (fun _ => { status := 404, data := [78] })
        = Except.ok { status := 404, data := [78] }
      ∧ (404 : Nat) ≠ 200 ∧ (404 : Nat) ≠ 401 := by
  exact ⟨rfl, by decide, by decide⟩

/-- C3 (amended): `get_manifest` raises only on the 401 path; every
response whose status is not 401 — 200 or any other status, error or not —
is returned to the caller together with its status and body. -/
theorem get_manifest_returns_any_non401
    (fat : Bool) (token : Option (List Char)) (new_token : List Char)
    (net : List (List Char × List Char) → Response)
    (h : (net (acceptHeader fat ++ registry_headers token)).status ≠ 401) :
    get_manifest fat token new_token net
      = Except.ok (net (acceptHeader fat ++ registry_headers token)) := by
  unfold get_manifest
  rw [if_neg h]

/-- Closed witness for `get_manifest_returns_any_non401` at a concrete
500 response. -/
theorem get_manifest_returns_any_non401_witness :
    get_manifest true none "t".toList (fun _ => { status := 500, data := [1] })
      = Except.ok { status := 500, data := [1] } :=
  get_manifest_returns_any_non401 true none "t".toList
    (fun _ => { status := 500, data := [1] }) (by decide)

/-! ## Blob push (`RegistryInfo.push_layer`, utils.py lines 332-370)

The transport is the oracle `net : Method → url → Response`; the list of
`(method, url)` pairs the function sends is returned alongside the result
so that which requests were issued is part of the observable behaviour.
The token endpoint's JSON body (read inside `get_token` during `auth()`)
is the oracle `token_json`.  Loading the blob from a path/`BytesIO` is
external; `content` is the loaded bytes. -/

inductive Method where
  | get
  | head
  | post
  | put
deriving Repr, DecidableEq

/-- Python `www_auth.replace("pull", "pull,push")` (utils.py line 349):
left-to-right, non-overlapping, replacement text not rescanned. -/
def replacePullPush : List Char → List Char
  | 'p' :: 'u' :: 'l' :: 'l' :: xs => "pull,push".toList ++ replacePullPush xs
  | x :: xs => x :: replacePullPush xs
  | [] => []

example :
    replacePullPush "Bearer realm=\"r\",scope=\"repository:a/b:pull\"".toList
      = "Bearer realm=\"r\",scope=\"repository:a/b:pull,push\"".toList := by decide

/-- The `manifest` dict `push_layer` builds and returns:
`{"size": ..., "digest": ..., "existing": ...}`. -/
structure PushManifest where
  size : Nat
  digest : List Char
  existing : Bool
deriving Repr, DecidableEq

/-- The upload half of `push_layer` (utils.py lines 354-370), entered with
the existence-check response `response`: skip the upload when the blob
already exists (status 200 and not `force`); otherwise POST an upload
session, then PUT the content to the session's `Location`, asserting 201. -/
def push_layer_upload (ri : RegistryInfo) (content : List Nat) (digest : List Char)
    (force : Bool) (net : Method → List Char → Response) (response : Response)
    (log : List (Method × List Char)) :
    Except (List Char) PushManifest × List (Method × List Char) :=
  if response.status = 200 ∧ force = false then
    (Except.ok { size := content.length, digest := digest, existing := true }, log)
  else
    let uploadsUrl := blobs_url ri ++ "/uploads/".toList
    let r2 := net Method.post uploadsUrl
    match lookupHeader r2.headers "Location".toList with
    | none => (Except.error "KeyError: Location".toList, log ++ [(Method.post, uploadsUrl)])
    | some location =>
      let putUrl := location ++ "&digest=".toList ++ digest
      let r3 := net Method.put putUrl
      if r3.status = 201 then
        (Except.ok { size := content.length, digest := digest, existing := false },
          log ++ [(Method.post, uploadsUrl), (Method.put, putUrl)])
      else
        (Except.error ("Failed to upload blob with digest ".toList ++ digest),
          log ++ [(Method.post, uploadsUrl), (Method.put, putUrl)])

/-- `RegistryInfo.push_layer`: compute the digest, HEAD the blob URL, run
the 401 re-auth dance if challenged (upgrading the challenge's scope from
`pull` to `pull,push` and re-checking with a GET), then upload unless the
blob already exists. -/
def push_layer (H : List Nat → List Char) (ri : RegistryInfo) (content : List Nat)
    (force : Bool) (net : Method → List Char → Response)
    (token_json : List Char → List (List Char × List Char)) :
    Except (List Char) PushManifest × List (Method × List Char) :=
  let digest := compute_sha256 H content
  let blobUrl := blobs_url ri ++ "/".toList ++ digest
  let response := net Method.head blobUrl
  let log := [(Method.head, blobUrl)]
  if response.status = 401 then
    match lookupHeader response.headers "WWW-Authenticate".toList with
    | none => (Except.error "KeyError: WWW-Authenticate".toList, log)
    | some www_auth =>
      let www_auth := replacePullPush www_auth
      if startKey.isPrefixOf www_auth then
        match get_url_from_auth_header www_auth with
        | none => (Except.error "AssertionError".toList, log)
        | some authUrl =>
          match get_token_parse (token_json authUrl) with
          | Except.error e => (Except.error e, log ++ [(Method.get, authUrl)])
          | Except.ok _new_token =>
            let retry := net Method.get blobUrl
            let log := log ++ [(Method.get, authUrl), (Method.get, blobUrl)]
            if retry.status = 401 then
              (Except.error "Could not authenticate to registry".toList, log)
            else push_layer_upload ri content digest force net retry log
      else (Except.error "AssertionError".toList, log)
  else push_layer_upload ri content digest force net response log

/-! ## Theorems for claim C6 -/

/-- C6: when the HEAD existence check answers 200 and `force` is false,
`push_layer` reports `existing = true` together with the blob's sha256
digest and size, and issues no POST upload-session request and no PUT
upload request (the HEAD is the only request sent). -/
theorem push_layer_dedup
    (H : List Nat → List Char) (ri : RegistryInfo) (content : List Nat)
    (net : Method → List Char → Response)
    (token_json : List Char → List (List Char × List Char))
    (h : (net Method.head (blobs_url ri ++ "/".toList ++ compute_sha256 H content)).status
      = 200) :
    push_layer H ri content false net token_json
        = (Except.ok (⟨content.length, compute_sha256 H content, true⟩ : PushManifest),
          [(Method.head, blobs_url ri ++ "/".toList ++ compute_sha256 H content)])
      ∧ ∀ p ∈ (push_layer H ri content false net token_json).2,
          p.1 ≠ Method.post ∧ p.1 ≠ Method.put := by
  have hne : (net Method.head (blobs_url ri ++ "/".toList
      ++ compute_sha256 H content)).status ≠ 401 := by
    rw [h]; decide
  have heq : push_layer H ri content false net token_json
      = (Except.ok (⟨content.length, compute_sha256 H content, true⟩ : PushManifest),
        [(Method.head, blobs_url ri ++ "/".toList ++ compute_sha256 H content)]) := by
    unfold push_layer
    rw [if_neg hne]
    unfold push_layer_upload
    rw [if_pos ⟨h, rfl⟩]
  refine ⟨heq, ?_⟩
  rw [heq]
  intro p hp
  rcases List.mem_singleton.mp hp with rfl
  exact ⟨(fun hcontra => nomatch hcontra), (fun hcontra => nomatch hcontra)⟩

/-- Closed witness for `push_layer_dedup` with a transport that always
answers 200. -/
theorem push_layer_dedup_witness :
    push_layer (fun _ => "aa".toList)
        (⟨"r".toList, "p".toList, "t".toList, true, none⟩ : RegistryInfo)
        [5] false (fun _ _ => ⟨200, [], []⟩) (fun _ => [])
        = (Except.ok (⟨1, "sha256:aa".toList, true⟩ : PushManifest),
          [(Method.head,
            blobs_url (⟨"r".toList, "p".toList, "t".toList, true, none⟩ : RegistryInfo)
              ++ "/".toList ++ "sha256:aa".toList)])
      ∧ ∀ p ∈ (push_layer (fun _ => "aa".toList)
          (⟨"r".toList, "p".toList, "t".toList, true, none⟩ : RegistryInfo)
          [5] false (fun _ _ => ⟨200, [], []⟩) (fun _ => [])).2,
          p.1 ≠ Method.post ∧ p.1 ≠ Method.put := by
  have := push_layer_dedup (fun _ => "aa".toList)
    (⟨"r".toList, "p".toList, "t".toList, true, none⟩ : RegistryInfo)
    [5] (fun _ _ => ⟨200, [], []⟩) (fun _ => []) rfl
  exact this

/-! ## Archive packing (`RegistryInfo.pull`, utils.py lines 298-330)

`pull` downloads the config and the layers and writes the archive's
`manifest.json` entry `{"Config": ..., "RepoTags": [str(self)], "Layers": ...}`.
The resolved manifest JSON is modelled by the fields `pull` reads:
`config.digest` and `layers[].digest`. -/

structure BlobDesc where
  digest : List Char
  size : Nat
deriving Repr, DecidableEq

structure WebManifest where
  configDigest : List Char
  layers : List BlobDesc
deriving Repr, DecidableEq

/-- `RegistryInfo.get_layers` (utils.py lines 245-255):
`[m["digest"] for m in manifest["layers"]]`. -/
def get_layers (m : WebManifest) : List (List Char) :=
  m.layers.map (fun b => b.digest)

/-- The per-layer archive path built in `pull`'s loop:
`layer.split(":")[-1] + "/layer.tar"`. -/
def layer_rel_path (layer : List Char) : List Char :=
  (splitAllChar ':' layer).getLastD [] ++ "/layer.tar".toList

/-- The `manifest.json` entry `pull` writes:
`[{"Config": ..., "RepoTags": [...], "Layers": [...]}]`. -/
structure ArchiveManifestEntry where
  Config : List Char
  RepoTags : List (List Char)
  Layers : List (List Char)
deriving Repr, DecidableEq

/-- The archive-manifest half of `RegistryInfo.pull`:
`config_filename = digest.split(":")[1] + ".json"` (an out-of-range index
raises, modelled as `none`), then the loop
`for layer in get_layers(): layer_path_l.append(path)`, then the entry. -/
def pull_manifest_entry (ri : RegistryInfo) (m : WebManifest) :
    Option ArchiveManifestEntry :=
  match (splitAllChar ':' m.configDigest)[1]? with
  | none => none
  | some p =>
    let config_filename := p ++ ".json".toList
    let layer_path_l :=
      (get_layers m).foldl (fun acc layer => acc ++ [layer_rel_path layer]) []
    some ⟨config_filename, [strOfRegistryInfo ri], layer_path_l⟩

theorem foldl_append_eq_map (f : List Char → List Char) (l : List (List Char)) :
    ∀ init : List (List Char),
      l.foldl (fun acc x => acc ++ [f x]) init = init ++ l.map f := by
  induction l with
  | nil => intro init; simp
  | cons x xs ih =>
    intro init
    rw [List.foldl_cons, ih (init ++ [f x]), List.map_cons]
    simp

/-! ## Theorems for claim C7 -/

/-- C7: the `Layers` list written into the archive's `manifest.json` has
exactly one layer path per manifest layer, in exactly the order of the
resolved manifest's `layers` array — the i-th entry is the path derived
from the i-th layer digest. -/
theorem pull_layers_order (ri : RegistryInfo) (m : WebManifest)
    (e : ArchiveManifestEntry) (h : pull_manifest_entry ri m = some e) :
    e.Layers = m.layers.map (fun b => layer_rel_path b.digest)
      ∧ e.Layers.length = m.layers.length
      ∧ ∀ i : Nat, e.Layers[i]? = (m.layers[i]?).map (fun b => layer_rel_path b.digest) := by
  have hmap : e.Layers = m.layers.map (fun b => layer_rel_path b.digest) := by
    unfold pull_manifest_entry at h
    cases hidx : (splitAllChar ':' m.configDigest)[1]? with
    | none => rw [hidx] at h; exact absurd h (by simp)
    | some p =>
      rw [hidx] at h
      simp only [Option.some.injEq] at h
      rw [← h]
      rw [foldl_append_eq_map, List.nil_append, get_layers, List.map_map]
      rfl
  refine ⟨hmap, by rw [hmap, List.length_map], ?_⟩
  intro i
  rw [hmap]
  exact List.getElem?_map _ _ _

/-- Closed witness for `pull_layers_order` on a two-layer manifest. -/
theorem pull_layers_order_witness :
    (⟨"cfg.json".toList, ["r/p:t".toList],
        ["l1/layer.tar".toList, "l2/layer.tar".toList]⟩ : ArchiveManifestEntry).Layers
      = ([⟨"sha256:l1".toList, 3⟩, ⟨"sha256:l2".toList, 4⟩] : List BlobDesc).map
          (fun b => layer_rel_path b.digest) :=
  (pull_layers_order
    (⟨"r".toList, "p".toList, "t".toList, true, none⟩ : RegistryInfo)
    ⟨"sha256:cfg".toList, [⟨"sha256:l1".toList, 3⟩, ⟨"sha256:l2".toList, 4⟩]⟩
    ⟨"cfg.json".toList, ["r/p:t".toList],
      ["l1/layer.tar".toList, "l2/layer.tar".toList]⟩ (by decide)).1

/-! ## Process-state effects of `pull` (utils.py lines 298-330)

`pull` runs inside `with tempfile.TemporaryDirectory() as temp_dir:` which
creates the directory on entry and deletes the whole tree on exit; the
loop calls `os.makedirs(f"{temp_dir}/{layer_folder}")`; while writing the
tar it calls `os.chdir(temp_dir)` (line 328) and never restores the
previous working directory.  The ambient process/filesystem state is
modelled as the working directory plus the set of existing directories;
the `os`/`tempfile` primitives have their documented Python semantics. -/

structure ProcState where
  cwd : List Char
  dirs : List (List Char)
deriving Repr, DecidableEq

/-- The directory/cwd effects of one `pull` call, in source order:
create `temp_dir`, `os.makedirs` one folder per layer under it,
`os.chdir(temp_dir)`, then the context exit deletes `temp_dir` and
everything under it. -/
def pull_dir_effects (s : ProcState) (temp_dir : List Char)
    (layer_folders : List (List Char)) : ProcState :=
  let s1 : ProcState := ⟨s.cwd, temp_dir :: s.dirs⟩
  let s2 : ProcState :=
    ⟨s1.cwd, (layer_folders.map (fun f => temp_dir ++ "/".toList ++ f)) ++ s1.dirs⟩
  let s3 : ProcState := ⟨temp_dir, s2.dirs⟩
  ⟨s3.cwd, s3.dirs.filter (fun d => !(temp_dir.isPrefixOf d))⟩

/-! ## Theorems for claim C8 -/

/-- C8: after `pull` returns, the process working directory is the packing
temp directory — `pull` changed it and never restored it — and that
directory no longer exists (the `TemporaryDirectory` exit deleted it), so
the process-wide working directory refers to a deleted directory. -/
theorem pull_chdir_deleted_dir (s : ProcState) (temp_dir : List Char)
    (layer_folders : List (List Char)) :
    (pull_dir_effects s temp_dir layer_folders).cwd = temp_dir
      ∧ temp_dir ∉ (pull_dir_effects s temp_dir layer_folders).dirs := by
  refine ⟨rfl, ?_⟩
  intro hmem
  have := (List.mem_filter.mp hmem).2
  rw [List.isPrefixOf_iff_prefix.mpr (List.prefix_refl temp_dir)] at this
  simp at this

/-! ## Theorems for claim C9 -/

/-- C9: when the token endpoint's JSON body contains both a `token` field
and an `access_token` field (in either order), `get_token` returns the
value of `token`. -/
theorem get_token_field_precedence (t a : List Char)
    (rest : List (List Char × List Char)) :
    get_token_parse (("token".toList, t) :: ("access_token".toList, a) :: rest)
        = Except.ok t
      ∧ get_token_parse (("access_token".toList, a) :: ("token".toList, t) :: rest)
        = Except.ok t := by
  constructor <;> rfl

end Crpy
